import Mathlib

/-!
A shallow embedding of `src/neox/training.py` (GPT-NeoX pretraining driver)
and proofs about its optimizer/scheduler builders, batch producer, training
step engine, training loop and evaluator.

Machine floats are modelled as exact rationals (`ℚ`); external collaborators
that live outside `src/` (`neox.utils`, `neox.learning_rates`, `mpu`, the
DeepSpeed engine) are modelled from the spec where a claim needs them, each
such definition carrying a doc comment saying so.
-/

/-- A Python value, as far as the `neox_args.optimizer` configuration field is
concerned: either a string or a dictionary. -/
inductive PyValue where
  | str : String → PyValue
  | dict : List (String × PyValue) → PyValue

/-- Python `v[k]` for a string key `k`: succeeds only when `v` is a dictionary
holding the key. Indexing anything else with a string key raises `TypeError`,
and a missing key raises `KeyError`; both are modelled as `none`. -/
def PyValue.getItem : PyValue → String → Option PyValue
  | .dict kvs, k => (kvs.find? (fun p => p.1 == k)).map (fun p => p.2)
  | .str _, _ => none

/-- Python `str.lower()` restricted to the ASCII strings at play (the standard
library's `String.toLower` is equivalent but not kernel-reducible, so the
character map is spelled out on the underlying character list). -/
def pyLower (s : String) : String := ⟨s.data.map Char.toLower⟩

/-- Python `v == s` comparing a value against a string literal: ordinary string
comparison when `v` is a string, and always `False` when `v` is a dictionary
(Python equality between a `dict` and a `str` is `False`, never an error). -/
def PyValue.eqStr : PyValue → String → Bool
  | .str s, t => s == t
  | .dict _, _ => false

/-- One model parameter, reduced to the two attributes `get_optimizer`
inspects: whether it requires gradients, and its `model_parallel` attribute
(`none` models the attribute being unset on the Python object). -/
structure Param where
  requires_grad : Bool
  model_parallel : Option Bool
deriving DecidableEq, Repr

/-- One optimizer parameter group as built by
`get_params_for_weight_decay_optimization`. -/
structure ParamGroup where
  params : List Param
  weight_decay : ℚ
deriving DecidableEq, Repr

/-- The loop in `get_optimizer` (training.py lines 300-303): every parameter
whose `model_parallel` attribute is unset gets it set to `False`. -/
def tagModelParallel (groups : List ParamGroup) : List ParamGroup :=
  groups.map (fun g =>
    { g with params := g.params.map (fun p =>
        if p.model_parallel.isNone then { p with model_parallel := some false } else p) })

/-- Modelled from the spec: `filter_trainable_params` (`neox.utils`, not under
`src/`) "removes parameters with gradients disabled from every group". -/
def filter_trainable_params (groups : List ParamGroup) : List ParamGroup :=
  groups.map (fun g => { g with params := g.params.filter (fun p => p.requires_grad) })

/-- The concrete optimizer classes `get_optimizer` can instantiate. -/
inductive OptimizerImpl where
  | deepSpeedCPUAdam
  | torchAdam
  | sm3
  | madgrad_wd
  | bnbAdam8bit
  | apexFusedAdam
  | deepSpeedFusedAdam
deriving DecidableEq, Repr

/-- Which optional third-party packages are importable in the running
environment (the `try import` blocks of the `adam` branch). -/
structure ImportEnv where
  bnb_available : Bool
  apex_available : Bool
deriving DecidableEq, Repr

/-- The fields of the global `neox_args` configuration object that the
embedded functions read. -/
structure NeoXArgs where
  no_load_optim : Bool
  optimizer_type : String
  optimizer : PyValue
  use_bnb_optimizer : Bool
  weight_decay : ℚ
  lr : ℚ
  warmup : ℚ
  lr_decay_iters : Option ℕ
  train_iters : ℕ
  lr_decay_style : String
  min_lr : ℚ
  use_checkpoint_lr_scheduler : Bool
  override_lr_scheduler : Bool
  precision : String
  gradient_accumulation_steps : ℕ
  is_pipe_parallel : Bool
  exit_interval : Option ℕ
  eval_iters : ℕ
  char_level_ppl : Bool
  eval_tasks : List String
  eod_mask_loss : Bool

/-- `get_optimizer` (training.py lines 279-368). Returns `(None, None)` at
once when `no_load_optim` is set. Otherwise the `print_rank_0` f-string
indexes `neox_args.optimizer["params"]`, which fails unless the optimizer
configuration is a dictionary holding that key; then parameters are tagged
with `model_parallel`, frozen parameters are filtered out, and the
implementation is dispatched on `optimizer_type.lower()`. Note the inner
test of the CPU branch compares `neox_args.optimizer` (the config value),
not `neox_args.optimizer_type`, against `"cpu_torch_adam"`, exactly as the
source does. -/
def get_optimizer (env : ImportEnv) (args : NeoXArgs) (raw_groups : List ParamGroup) :
    Except String (Option OptimizerImpl × Option (List ParamGroup)) :=
  if args.no_load_optim then .ok (none, none)
  else
    match args.optimizer.getItem "params" with
    | none => .error "TypeError: optimizer configuration is not a dictionary with key params"
    | some _ =>
      let param_groups := filter_trainable_params (tagModelParallel raw_groups)
      let t := pyLower args.optimizer_type
      if t == "cpu_adam" || t == "cpu_torch_adam" then
        let cpu_adam_optimizer :=
          if args.optimizer.eqStr "cpu_torch_adam" then OptimizerImpl.torchAdam
          else OptimizerImpl.deepSpeedCPUAdam
        .ok (some cpu_adam_optimizer, some param_groups)
      else if t == "onebitadam" then
        .ok (none, some param_groups)
      else if t == "sm3" then
        .ok (some .sm3, some param_groups)
      else if t == "madgrad_wd" then
        .ok (some .madgrad_wd, some param_groups)
      else if t == "adam" then
        if args.use_bnb_optimizer then
          if env.bnb_available then .ok (some .bnbAdam8bit, some param_groups)
          else .error "Please install bitsandbytes"
        else if env.apex_available then
          .ok (some .apexFusedAdam, some param_groups)
        else
          .ok (some .deepSpeedFusedAdam, some param_groups)
      else
        .error ("Optimizer type " ++ args.optimizer_type ++ " not recognized")

/-- The constructor arguments `get_learning_rate_scheduler` hands to
`AnnealingLR` (`neox.learning_rates`, an external collaborator; only the
argument record is modelled). -/
structure AnnealingLR where
  start_lr : ℚ
  warmup_iter : ℚ
  total_iters : ℕ
  decay_style : String
  last_iter : ℕ
  min_lr : ℚ
  use_checkpoint_lr_scheduler : Bool
  override_lr_scheduler : Bool
deriving DecidableEq, Repr

/-- `get_learning_rate_scheduler` (training.py lines 371-410): `None` when
`no_load_optim` is set or the optimizer type is `onebitadam`; otherwise the
annealing schedule built from `lr_decay_iters` (falling back to
`train_iters`). -/
def get_learning_rate_scheduler (args : NeoXArgs) : Option AnnealingLR :=
  if args.no_load_optim then none
  else if pyLower args.optimizer_type == "onebitadam" then none
  else
    let num_iters : ℕ := match args.lr_decay_iters with
      | some n => n
      | none => args.train_iters
    some {
      start_lr := args.lr
      warmup_iter := args.warmup * (num_iters : ℚ)
      total_iters := max 1 num_iters
      decay_style := args.lr_decay_style
      last_iter := 0
      min_lr := args.min_lr
      use_checkpoint_lr_scheduler := args.use_checkpoint_lr_scheduler
      override_lr_scheduler := args.override_lr_scheduler }

/-- A baseline concrete configuration used to instantiate witnesses. -/
def argsBase : NeoXArgs where
  no_load_optim := false
  optimizer_type := "adam"
  optimizer := PyValue.dict [("params", PyValue.dict [])]
  use_bnb_optimizer := false
  weight_decay := 0
  lr := 1/10
  warmup := 1/100
  lr_decay_iters := none
  train_iters := 1000
  lr_decay_style := "cosine"
  min_lr := 0
  use_checkpoint_lr_scheduler := false
  override_lr_scheduler := false
  precision := "fp16"
  gradient_accumulation_steps := 2
  is_pipe_parallel := false
  exit_interval := none
  eval_iters := 2
  char_level_ppl := true
  eval_tasks := []
  eod_mask_loss := false

/-- C6: whenever `no_load_optim` is set, `get_optimizer` returns
`(None, None)` immediately, for every environment, optimizer type and
parameter-group input, and `get_learning_rate_scheduler` returns `None`. -/
theorem no_load_optim_short_circuits
    (env : ImportEnv) (args : NeoXArgs) (raw_groups : List ParamGroup)
    (h : args.no_load_optim = true) :
    get_optimizer env args raw_groups = .ok (none, none) ∧
    get_learning_rate_scheduler args = none := by
  constructor <;> simp [get_optimizer, get_learning_rate_scheduler, h]

/-- Witness for C6 at a concrete configuration. -/
theorem no_load_optim_short_circuits_witness :
    get_optimizer ⟨false, false⟩ { argsBase with no_load_optim := true } [] = .ok (none, none) ∧
    get_learning_rate_scheduler { argsBase with no_load_optim := true } = none :=
  no_load_optim_short_circuits ⟨false, false⟩ { argsBase with no_load_optim := true } [] rfl

/-- The optimizer type strings `get_optimizer` recognizes (after lowercasing). -/
def supportedOptimizerTypes : List String :=
  ["cpu_adam", "cpu_torch_adam", "onebitadam", "sm3", "madgrad_wd", "adam"]

theorem eqStr_eq_false_of_getItem_eq_some {v : PyValue} {k s : String} {p : PyValue}
    (h : v.getItem k = some p) : v.eqStr s = false := by
  cases v with
  | str t => simp [PyValue.getItem] at h
  | dict kvs => simp [PyValue.eqStr]

theorem get_optimizer_cpu_branch
    (env : ImportEnv) (args : NeoXArgs) (raw_groups : List ParamGroup) (p : PyValue)
    (hload : args.no_load_optim = false)
    (hparams : args.optimizer.getItem "params" = some p)
    (h : pyLower args.optimizer_type = "cpu_adam" ∨ pyLower args.optimizer_type = "cpu_torch_adam") :
    get_optimizer env args raw_groups =
      .ok (some OptimizerImpl.deepSpeedCPUAdam,
           some (filter_trainable_params (tagModelParallel raw_groups))) := by
  have heq : args.optimizer.eqStr "cpu_torch_adam" = false :=
    eqStr_eq_false_of_getItem_eq_some hparams
  rcases h with h | h <;> simp [get_optimizer, hload, hparams, h, heq]

theorem get_optimizer_onebitadam_branch
    (env : ImportEnv) (args : NeoXArgs) (raw_groups : List ParamGroup) (p : PyValue)
    (hload : args.no_load_optim = false)
    (hparams : args.optimizer.getItem "params" = some p)
    (h : pyLower args.optimizer_type = "onebitadam") :
    get_optimizer env args raw_groups =
      .ok (none, some (filter_trainable_params (tagModelParallel raw_groups))) := by
  simp [get_optimizer, hload, hparams, h]

theorem get_optimizer_sm3_branch
    (env : ImportEnv) (args : NeoXArgs) (raw_groups : List ParamGroup) (p : PyValue)
    (hload : args.no_load_optim = false)
    (hparams : args.optimizer.getItem "params" = some p)
    (h : pyLower args.optimizer_type = "sm3") :
    get_optimizer env args raw_groups =
      .ok (some OptimizerImpl.sm3, some (filter_trainable_params (tagModelParallel raw_groups))) := by
  simp [get_optimizer, hload, hparams, h]

theorem get_optimizer_madgrad_branch
    (env : ImportEnv) (args : NeoXArgs) (raw_groups : List ParamGroup) (p : PyValue)
    (hload : args.no_load_optim = false)
    (hparams : args.optimizer.getItem "params" = some p)
    (h : pyLower args.optimizer_type = "madgrad_wd") :
    get_optimizer env args raw_groups =
      .ok (some OptimizerImpl.madgrad_wd,
           some (filter_trainable_params (tagModelParallel raw_groups))) := by
  simp [get_optimizer, hload, hparams, h]

theorem get_optimizer_adam_branch
    (env : ImportEnv) (args : NeoXArgs) (raw_groups : List ParamGroup) (p : PyValue)
    (hload : args.no_load_optim = false)
    (hparams : args.optimizer.getItem "params" = some p)
    (h : pyLower args.optimizer_type = "adam") :
    get_optimizer env args raw_groups =
      (if args.use_bnb_optimizer then
        (if env.bnb_available then
          .ok (some OptimizerImpl.bnbAdam8bit,
               some (filter_trainable_params (tagModelParallel raw_groups)))
         else .error "Please install bitsandbytes")
       else if env.apex_available then
        .ok (some OptimizerImpl.apexFusedAdam,
             some (filter_trainable_params (tagModelParallel raw_groups)))
       else
        .ok (some OptimizerImpl.deepSpeedFusedAdam,
             some (filter_trainable_params (tagModelParallel raw_groups)))) := by
  simp [get_optimizer, hload, hparams, h]

theorem get_optimizer_unrecognized_branch
    (env : ImportEnv) (args : NeoXArgs) (raw_groups : List ParamGroup) (p : PyValue)
    (hload : args.no_load_optim = false)
    (hparams : args.optimizer.getItem "params" = some p)
    (h : pyLower args.optimizer_type ∉ supportedOptimizerTypes) :
    get_optimizer env args raw_groups =
      .error ("Optimizer type " ++ args.optimizer_type ++ " not recognized") := by
  simp only [supportedOptimizerTypes, List.mem_cons, List.not_mem_nil, or_false, not_or] at h
  obtain ⟨h1, h2, h3, h4, h5, h6⟩ := h
  simp [get_optimizer, hload, hparams, h1, h2, h3, h4, h5, h6]

/-- C4: `get_learning_rate_scheduler`, whenever it builds a scheduler (loading
enabled, optimizer not `onebitadam`), computes `num_iters` as `lr_decay_iters`
when set and `train_iters` otherwise, and hands `AnnealingLR` a warmup
duration of `warmup * num_iters` and a total duration of `max 1 num_iters`
(the witness instantiates `warmup = 1/100`, `train_iters = 1000`,
`lr_decay_iters = None` and reads off total duration `1000` and warmup
duration `10`). -/
theorem get_learning_rate_scheduler_durations
    (args : NeoXArgs)
    (h1 : args.no_load_optim = false)
    (h2 : pyLower args.optimizer_type ≠ "onebitadam") :
    get_learning_rate_scheduler args =
      some { start_lr := args.lr
             warmup_iter := args.warmup * ((args.lr_decay_iters.getD args.train_iters : ℕ) : ℚ)
             total_iters := max 1 (args.lr_decay_iters.getD args.train_iters)
             decay_style := args.lr_decay_style
             last_iter := 0
             min_lr := args.min_lr
             use_checkpoint_lr_scheduler := args.use_checkpoint_lr_scheduler
             override_lr_scheduler := args.override_lr_scheduler } := by
  cases hd : args.lr_decay_iters <;>
    simp [get_learning_rate_scheduler, h1, h2, hd]

/-- Witness for C4: the spec's concrete instance (`warmup = 0.01`,
`train_iters = 1000`, no explicit decay iterations) yields total duration
`1000` and warmup duration `10`. -/
theorem get_learning_rate_scheduler_durations_witness :
    (get_learning_rate_scheduler argsBase).map AnnealingLR.total_iters = some 1000 ∧
    (get_learning_rate_scheduler argsBase).map AnnealingLR.warmup_iter = some 10 := by
  rw [get_learning_rate_scheduler_durations argsBase rfl (by simp only [argsBase]; decide)]
  constructor
  · simp [argsBase]
  · norm_num [argsBase]

/-- C7: with optimizer loading enabled and a well-formed optimizer config
dictionary (and, when 8-bit Adam is requested, `bitsandbytes` importable),
`get_optimizer` dispatches case-insensitively over exactly the type strings
`cpu_adam`, `cpu_torch_adam`, `onebitadam`, `sm3`, `madgrad_wd`, `adam`:
a string is outside the set iff the call raises the unrecognized-optimizer-
type error, `onebitadam` yields optimizer `None` as a deferred placeholder,
and every other member of the set yields a constructed optimizer. -/
theorem get_optimizer_type_dispatch
    (env : ImportEnv) (args : NeoXArgs) (raw_groups : List ParamGroup) (p : PyValue)
    (hload : args.no_load_optim = false)
    (hparams : args.optimizer.getItem "params" = some p)
    (hbnb : args.use_bnb_optimizer = true → env.bnb_available = true) :
    (pyLower args.optimizer_type ∉ supportedOptimizerTypes ↔
      get_optimizer env args raw_groups =
        .error ("Optimizer type " ++ args.optimizer_type ++ " not recognized")) ∧
    (pyLower args.optimizer_type = "onebitadam" →
      get_optimizer env args raw_groups =
        .ok (none, some (filter_trainable_params (tagModelParallel raw_groups)))) ∧
    (pyLower args.optimizer_type ∈ supportedOptimizerTypes →
      pyLower args.optimizer_type ≠ "onebitadam" →
      ∃ impl, get_optimizer env args raw_groups =
        .ok (some impl, some (filter_trainable_params (tagModelParallel raw_groups)))) := by
  have hok : pyLower args.optimizer_type ∈ supportedOptimizerTypes →
      pyLower args.optimizer_type = "onebitadam" ∨
      ∃ impl, get_optimizer env args raw_groups =
        .ok (some impl, some (filter_trainable_params (tagModelParallel raw_groups))) := by
    intro hmem
    simp only [supportedOptimizerTypes, List.mem_cons, List.not_mem_nil, or_false] at hmem
    rcases hmem with h | h | h | h | h | h
    · exact Or.inr ⟨_, get_optimizer_cpu_branch env args raw_groups p hload hparams (Or.inl h)⟩
    · exact Or.inr ⟨_, get_optimizer_cpu_branch env args raw_groups p hload hparams (Or.inr h)⟩
    · exact Or.inl h
    · exact Or.inr ⟨_, get_optimizer_sm3_branch env args raw_groups p hload hparams h⟩
    · exact Or.inr ⟨_, get_optimizer_madgrad_branch env args raw_groups p hload hparams h⟩
    · refine Or.inr ?_
      rw [get_optimizer_adam_branch env args raw_groups p hload hparams h]
      cases hu : args.use_bnb_optimizer with
      | true => simp [hu, hbnb hu]
      | false =>
        cases ha : env.apex_available <;> simp [hu, ha]
  refine ⟨⟨fun h => get_optimizer_unrecognized_branch env args raw_groups p hload hparams h,
      fun herr hmem => ?_⟩,
    fun h => get_optimizer_onebitadam_branch env args raw_groups p hload hparams h,
    fun hmem hne => ?_⟩
  · rcases hok hmem with h | ⟨impl, h⟩
    · rw [get_optimizer_onebitadam_branch env args raw_groups p hload hparams h] at herr
      exact Except.noConfusion herr
    · rw [h] at herr
      exact Except.noConfusion herr
  · rcases hok hmem with h | h
    · exact absurd h hne
    · exact h

/-- Witness for C7: an unknown type string raises the unrecognized error, and
`onebitadam` returns no optimizer. -/
theorem get_optimizer_type_dispatch_witness :
    get_optimizer ⟨false, false⟩ { argsBase with optimizer_type := "AdaFactor" } [] =
      .error "Optimizer type AdaFactor not recognized" ∧
    get_optimizer ⟨false, false⟩ { argsBase with optimizer_type := "OneBitAdam" } [] =
      .ok (none, some []) := by
  constructor
  · exact (get_optimizer_type_dispatch ⟨false, false⟩
      { argsBase with optimizer_type := "AdaFactor" } [] (PyValue.dict [])
      rfl rfl (fun h => by simp [argsBase] at h)).1.mp (by simp only [argsBase]; decide)
  · exact (get_optimizer_type_dispatch ⟨false, false⟩
      { argsBase with optimizer_type := "OneBitAdam" } [] (PyValue.dict [])
      rfl rfl (fun h => by simp [argsBase] at h)).2.1 (by simp only [argsBase]; decide)

/-- C10: the inner test of the CPU branch compares `neox_args.optimizer` (the
optimizer config value, a dictionary in any run that reaches the dispatch,
since the preceding f-string already indexed it with `"params"`) against the
string `"cpu_torch_adam"`, so the comparison is never true: both type strings
`cpu_adam` and `cpu_torch_adam` construct `DeepSpeedCPUAdam`, and the
`torch.optim.Adam` branch is unreachable for every input. -/
theorem cpu_torch_adam_branch_unreachable
    (env : ImportEnv) (args : NeoXArgs) (raw_groups : List ParamGroup) :
    (∀ rest, get_optimizer env args raw_groups ≠ .ok (some OptimizerImpl.torchAdam, rest)) ∧
    (∀ p, args.optimizer.getItem "params" = some p → args.no_load_optim = false →
      (pyLower args.optimizer_type = "cpu_adam" ∨ pyLower args.optimizer_type = "cpu_torch_adam") →
      get_optimizer env args raw_groups =
        .ok (some OptimizerImpl.deepSpeedCPUAdam,
             some (filter_trainable_params (tagModelParallel raw_groups)))) := by
  refine ⟨?_, fun p hp hl h => get_optimizer_cpu_branch env args raw_groups p hl hp h⟩
  intro rest h
  by_cases hl : args.no_load_optim = true
  · simp [get_optimizer, hl] at h
  · rw [Bool.not_eq_true] at hl
    cases hp : args.optimizer.getItem "params" with
    | none => simp [get_optimizer, hl, hp] at h
    | some p =>
      by_cases h1 : pyLower args.optimizer_type = "cpu_adam"
      · rw [get_optimizer_cpu_branch env args raw_groups p hl hp (Or.inl h1)] at h
        simp at h
      by_cases h2 : pyLower args.optimizer_type = "cpu_torch_adam"
      · rw [get_optimizer_cpu_branch env args raw_groups p hl hp (Or.inr h2)] at h
        simp at h
      by_cases h3 : pyLower args.optimizer_type = "onebitadam"
      · rw [get_optimizer_onebitadam_branch env args raw_groups p hl hp h3] at h
        simp at h
      by_cases h4 : pyLower args.optimizer_type = "sm3"
      · rw [get_optimizer_sm3_branch env args raw_groups p hl hp h4] at h
        simp at h
      by_cases h5 : pyLower args.optimizer_type = "madgrad_wd"
      · rw [get_optimizer_madgrad_branch env args raw_groups p hl hp h5] at h
        simp at h
      by_cases h6 : pyLower args.optimizer_type = "adam"
      · rw [get_optimizer_adam_branch env args raw_groups p hl hp h6] at h
        split at h
        · split at h <;> simp at h
        · split at h <;> simp at h
      · rw [get_optimizer_unrecognized_branch env args raw_groups p hl hp
          (by simp [supportedOptimizerTypes, h1, h2, h3, h4, h5, h6])] at h
        simp at h

/-- Witness for C10: the type string `cpu_torch_adam` itself constructs
`DeepSpeedCPUAdam`. -/
theorem cpu_torch_adam_branch_unreachable_witness :
    get_optimizer ⟨false, false⟩ { argsBase with optimizer_type := "cpu_torch_adam" } [] =
      .ok (some OptimizerImpl.deepSpeedCPUAdam, some []) := by
  have h := (cpu_torch_adam_branch_unreachable ⟨false, false⟩
      { argsBase with optimizer_type := "cpu_torch_adam" } []).2
      (PyValue.dict []) rfl rfl (Or.inr (by simp only [argsBase]; decide))
  simpa [filter_trainable_params, tagModelParallel] using h

/-- The operations one micro-batch of the manual (non-pipeline) branch of
`train_step` performs, tagged with the micro-batch index inside the
accumulation window. -/
inductive StepEvent where
  | forwardPass (micro : ℕ)
  | backwardPass (micro : ℕ)
  | optimizerStep (micro : ℕ)
deriving DecidableEq, Repr

/-- Whether an event is the `model.step()` parameter-update call. -/
def StepEvent.isOptimizerStep : StepEvent → Bool
  | .optimizerStep _ => true
  | _ => false

/-- Modelled from the spec: `reduce_losses` (`neox.utils`, not under `src/`)
averages each collected loss across the data-parallel workers. The other
workers' losses are outside this embedding, so the per-scalar cross-worker
average is an abstract map `red` applied to each entry. -/
def reduce_losses {α : Type} (red : α → α) (losses : List α) : List α :=
  losses.map red

/-- `tensor.mean()`: the arithmetic mean of a list of scalars. -/
def listMean {α : Type} [DivisionRing α] (l : List α) : α :=
  l.sum / (l.length : α)

/-- The accumulation loop of manual-mode `train_step` (training.py lines
505-531): for each of `g` micro-batches, one forward pass consuming the next
batch of the iterator (its loss is `lossFn` at the iterator position `it`),
one backward pass, then one `model.step()` call. Returns the final iterator
position, the collected micro-batch losses, and the event trace; `micro`
numbers the micro-batches of the window. -/
def accumulationLoop (lossFn : ℕ → ℚ) : ℕ → ℕ → ℕ → ℕ × List ℚ × List StepEvent
  | 0, it, _ => (it, [], [])
  | g + 1, it, micro =>
    let loss := lossFn it
    let rest := accumulationLoop lossFn g (it + 1) (micro + 1)
    (rest.1, loss :: rest.2.1,
     .forwardPass micro :: .backwardPass micro :: .optimizerStep micro :: rest.2.2)

/-- `train_step` (training.py lines 483-541). The pipeline branch hands the
whole schedule to `model.train_batch`, whose scalar loss is the abstract
`pipeLoss` and whose internal micro-batch schedule is opaque to this module
(no events, iterator consumed by the engine); the manual branch runs the
accumulation loop and reduces the collected losses into the `"lm_loss"`
entry. In both modes the function's returned value is the pair
`(loss_dict, skipped_iter)`, where `skipped_iter` is `1` exactly when the
configured precision is `"fp16"` and `model.optimizer.overflow` (the
`overflow` argument) is set after the step, and `0` otherwise. The second and
third components record the side effects: final iterator position and event
trace. -/
def train_step (args : NeoXArgs) (red : ℚ → ℚ) (lossFn : ℕ → ℚ) (pipeLoss : ℚ)
    (overflow : Bool) (it : ℕ) :
    (List (String × ℚ) × ℕ) × ℕ × List StepEvent :=
  let stepRun :=
    if args.is_pipe_parallel then
      ([("lm_loss", pipeLoss)], it, ([] : List StepEvent))
    else
      let r := accumulationLoop lossFn args.gradient_accumulation_steps it 0
      ([("lm_loss", listMean (reduce_losses red r.2.1))], r.1, r.2.2)
  let skipped : ℕ := if args.precision = "fp16" ∧ overflow = true then 1 else 0
  ((stepRun.1, skipped), stepRun.2.1, stepRun.2.2)

/-- C1: for every call to `train_step`, in pipeline as in manual mode, the
returned value is the pair `(loss_dict, skipped)` whose flag equals `1` iff
the configured precision is `"fp16"` and the optimizer reports overflow after
the step, and equals `0` otherwise. -/
theorem train_step_skipped_flag
    (args : NeoXArgs) (red : ℚ → ℚ) (lossFn : ℕ → ℚ) (pipeLoss : ℚ)
    (overflow : Bool) (it : ℕ) :
    ((train_step args red lossFn pipeLoss overflow it).1.2 =
      if args.precision = "fp16" ∧ overflow = true then 1 else 0) ∧
    ((train_step args red lossFn pipeLoss overflow it).1.2 = 1 ↔
      (args.precision = "fp16" ∧ overflow = true)) := by
  refine ⟨rfl, ?_⟩
  by_cases hc : args.precision = "fp16" ∧ overflow = true <;>
    simp [train_step, hc]

theorem accumulationLoop_spec (lossFn : ℕ → ℚ) (g it micro : ℕ) :
    accumulationLoop lossFn g it micro =
      (it + g, (List.range' it g).map lossFn,
       (List.range' micro g).flatMap
         (fun i => [StepEvent.forwardPass i, StepEvent.backwardPass i,
                    StepEvent.optimizerStep i])) := by
  induction g generalizing it micro with
  | zero => simp [accumulationLoop]
  | succ g ih =>
    simp only [accumulationLoop, ih, List.range'_succ, List.map_cons, List.flatMap_cons]
    have harith : it + 1 + g = it + (g + 1) := by omega
    rw [harith]
    simp

theorem countP_optimizerStep_flatMap (micro g : ℕ) :
    (((List.range' micro g).flatMap
        (fun i => [StepEvent.forwardPass i, StepEvent.backwardPass i,
                   StepEvent.optimizerStep i])).countP StepEvent.isOptimizerStep) = g := by
  induction g generalizing micro with
  | zero => simp
  | succ g ih =>
    simp [List.range'_succ, List.countP_cons, StepEvent.isOptimizerStep, ih]

/-- C2: in manual mode, `train_step` performs exactly
`gradient_accumulation_steps` micro-batch iterations, each a forward pass, a
backward pass, then one `model.step()` parameter-update call (the trace is
the per-micro-batch triple repeated, so the number of update calls equals the
number of micro-batches — not one per accumulation window), the iterator
advances by one batch per micro-batch, and the returned `loss_dict` maps
`"lm_loss"` to the mean of all micro-batch losses after each has been reduced
(averaged) across the data-parallel workers. -/
theorem train_step_manual_mode
    (args : NeoXArgs) (red : ℚ → ℚ) (lossFn : ℕ → ℚ) (pipeLoss : ℚ)
    (overflow : Bool) (it : ℕ)
    (hmode : args.is_pipe_parallel = false) :
    ((train_step args red lossFn pipeLoss overflow it).2.2 =
      (List.range args.gradient_accumulation_steps).flatMap
        (fun i => [StepEvent.forwardPass i, StepEvent.backwardPass i,
                   StepEvent.optimizerStep i])) ∧
    ((train_step args red lossFn pipeLoss overflow it).2.2.countP
        StepEvent.isOptimizerStep = args.gradient_accumulation_steps) ∧
    ((train_step args red lossFn pipeLoss overflow it).2.1 =
      it + args.gradient_accumulation_steps) ∧
    ((train_step args red lossFn pipeLoss overflow it).1.1 =
      [("lm_loss",
        listMean (reduce_losses red
          ((List.range args.gradient_accumulation_steps).map
            (fun i => lossFn (it + i)))))]) := by
  refine ⟨?_, ?_, ?_, ?_⟩
  · simp [train_step, hmode, accumulationLoop_spec, List.range_eq_range']
  · simp [train_step, hmode, accumulationLoop_spec, countP_optimizerStep_flatMap]
  · simp [train_step, hmode, accumulationLoop_spec]
  · simp [train_step, hmode, accumulationLoop_spec, List.range'_eq_map_range,
      List.map_map, Function.comp_def]

/-- Witness for C2 at a concrete manual-mode configuration with two
accumulation steps. -/
theorem train_step_manual_mode_witness :
    ((train_step argsBase id (fun n => (n : ℚ)) 0 false 5).2.2 =
      (List.range argsBase.gradient_accumulation_steps).flatMap
        (fun i => [StepEvent.forwardPass i, StepEvent.backwardPass i,
                   StepEvent.optimizerStep i])) ∧
    ((train_step argsBase id (fun n => (n : ℚ)) 0 false 5).2.2.countP
        StepEvent.isOptimizerStep = argsBase.gradient_accumulation_steps) ∧
    ((train_step argsBase id (fun n => (n : ℚ)) 0 false 5).2.1 =
      5 + argsBase.gradient_accumulation_steps) ∧
    ((train_step argsBase id (fun n => (n : ℚ)) 0 false 5).1.1 =
      [("lm_loss",
        listMean (reduce_losses id
          ((List.range argsBase.gradient_accumulation_steps).map
            (fun i => ((5 + i : ℕ) : ℚ)))))]) :=
  train_step_manual_mode argsBase id (fun n => (n : ℚ)) 0 false 5 rfl

/-- How a run of the training loop ends: a normal return of the final
iteration count, the synchronized early exit (`sys.exit()` after the
barrier, so no function return), or the fatal abort the overflow monitor
raises on persistent overflow. -/
inductive TrainOutcome where
  | completed (finalIteration : ℕ)
  | exited (atIteration : ℕ)
  | aborted (atIteration : ℕ)
deriving DecidableEq, Repr

/-- The Python truthiness test
`neox_args.exit_interval and iteration % neox_args.exit_interval == 0`
(training.py line 678): an unset (`None`) or zero interval is falsy. -/
def exitRequested (exit_interval : Option ℕ) (iteration : ℕ) : Bool :=
  match exit_interval with
  | none => false
  | some e => e != 0 && iteration % e == 0

/-- Modelled from the spec: the `OverflowMonitor` (`neox.utils`, not under
`src/`) holds a consecutive-skip counter that resets to zero on any
non-skipped step and triggers a fatal abort once it exceeds the configured
threshold. `none` is the abort; otherwise the updated counter. -/
def overflowMonitorCheck (threshold counter : ℕ) (skipped : Bool) : Option ℕ :=
  if skipped then
    if counter + 1 > threshold then none else some (counter + 1)
  else some 0

/-- The `while iteration < train_iters` loop of `train` (training.py lines
612-689), with explicit fuel (`train` passes `train_iters - iteration`, which
cannot be exhausted while the guard holds). Per pass: one `train_step` whose
skip flag is `skippedFn iteration`, `iteration += 1`, the overflow-monitor
check, then the synchronized early-exit test. Logging, checkpointing and
evaluation touch none of the modelled state and are omitted. -/
def trainGo (train_iters : ℕ) (exit_interval : Option ℕ) (threshold : ℕ)
    (skippedFn : ℕ → Bool) : ℕ → ℕ → ℕ → TrainOutcome
  | 0, iteration, _ => .completed iteration
  | fuel + 1, iteration, counter =>
    if iteration < train_iters then
      match overflowMonitorCheck threshold counter (skippedFn iteration) with
      | none => .aborted (iteration + 1)
      | some counter' =>
        if exitRequested exit_interval (iteration + 1) then .exited (iteration + 1)
        else trainGo train_iters exit_interval threshold skippedFn fuel (iteration + 1) counter'
    else .completed iteration

/-- `train` (training.py lines 572-689): start from the resume iteration
(`neox_args.iteration`) with a fresh overflow monitor and loop while
`iteration < train_iters`; on normal completion the final iteration count is
returned. -/
def train (args : NeoXArgs) (skippedFn : ℕ → Bool) (threshold resumeIteration : ℕ) :
    TrainOutcome :=
  trainGo args.train_iters args.exit_interval threshold skippedFn
    (args.train_iters - resumeIteration) resumeIteration 0

theorem trainGo_completed (train_iters : ℕ) (exit_interval : Option ℕ)
    (threshold : ℕ) (skippedFn : ℕ → Bool) :
    ∀ fuel iteration counter n, train_iters ≤ iteration + fuel →
      trainGo train_iters exit_interval threshold skippedFn fuel iteration counter =
        .completed n →
      n = max iteration train_iters := by
  intro fuel
  induction fuel with
  | zero =>
    intro iteration counter n hf h
    simp only [trainGo, TrainOutcome.completed.injEq] at h
    omega
  | succ fuel ih =>
    intro iteration counter n hf h
    simp only [trainGo] at h
    by_cases hit : iteration < train_iters
    · rw [if_pos hit] at h
      cases hm : overflowMonitorCheck threshold counter (skippedFn iteration) with
      | none => simp only [hm] at h; exact absurd h (by simp)
      | some counter' =>
        simp only [hm] at h
        by_cases hex : exitRequested exit_interval (iteration + 1) = true
        · rw [if_pos hex] at h; exact absurd h (by simp)
        · rw [if_neg hex] at h
          have := ih (iteration + 1) counter' n (by omega) h
          omega
    · rw [if_neg hit] at h
      simp only [TrainOutcome.completed.injEq] at h
      omega

theorem trainGo_exited (train_iters : ℕ) (exit_interval : Option ℕ)
    (threshold : ℕ) (skippedFn : ℕ → Bool) :
    ∀ fuel iteration counter n,
      trainGo train_iters exit_interval threshold skippedFn fuel iteration counter =
        .exited n →
      exitRequested exit_interval n = true := by
  intro fuel
  induction fuel with
  | zero =>
    intro iteration counter n h
    exact absurd h (by simp [trainGo])
  | succ fuel ih =>
    intro iteration counter n h
    simp only [trainGo] at h
    by_cases hit : iteration < train_iters
    · rw [if_pos hit] at h
      cases hm : overflowMonitorCheck threshold counter (skippedFn iteration) with
      | none => simp only [hm] at h; exact absurd h (by simp)
      | some counter' =>
        simp only [hm] at h
        by_cases hex : exitRequested exit_interval (iteration + 1) = true
        · rw [if_pos hex] at h
          simp only [TrainOutcome.exited.injEq] at h
          exact h ▸ hex
        · rw [if_neg hex] at h
          exact ih (iteration + 1) counter' n h
    · rw [if_neg hit] at h
      exact absurd h (by simp)

/-- C3: the loop starts at the resume iteration and advances it by exactly 1
per training step while `iteration < train_iters`; whenever it returns
normally the returned final count is `max resume train_iters` — in particular
`train_iters` whenever the resume iteration is below `train_iters` — and
whenever the run ends through the synchronized early-exit path instead of
returning, the exit happened at an iteration satisfying the
`exit_interval`-divisibility test (the interval set, nonzero, and dividing
the iteration count). -/
theorem train_loop_iteration_accounting
    (args : NeoXArgs) (skippedFn : ℕ → Bool) (threshold resumeIteration : ℕ) :
    (∀ n, train args skippedFn threshold resumeIteration = .completed n →
      n = max resumeIteration args.train_iters) ∧
    (∀ n, train args skippedFn threshold resumeIteration = .exited n →
      ∃ e, args.exit_interval = some e ∧ e ≠ 0 ∧ n % e = 0) := by
  constructor
  · intro n h
    exact trainGo_completed args.train_iters args.exit_interval threshold skippedFn
      (args.train_iters - resumeIteration) resumeIteration 0 n (by omega) h
  · intro n h
    have hex := trainGo_exited args.train_iters args.exit_interval threshold skippedFn
      (args.train_iters - resumeIteration) resumeIteration 0 n h
    cases he : args.exit_interval with
    | none => rw [he] at hex; simp [exitRequested] at hex
    | some e =>
      rw [he] at hex
      simp only [exitRequested, Bool.and_eq_true, bne_iff_ne, ne_eq,
        beq_iff_eq] at hex
      exact ⟨e, rfl, hex.1, hex.2⟩

/-- Witness for C3: a three-iteration run from a fresh start with no early
exit completes at exactly `train_iters = 3`. -/
theorem train_loop_iteration_accounting_witness :
    train { argsBase with train_iters := 3 } (fun _ => false) 5 0 = .completed 3 ∧
    (3 : ℕ) = max 0 3 := by
  have h : train { argsBase with train_iters := 3 } (fun _ => false) 5 0 = .completed 3 := by
    simp only [argsBase]
    decide
  exact ⟨h, (train_loop_iteration_accounting { argsBase with train_iters := 3 }
    (fun _ => false) 5 0).1 3 h⟩

/-- Modelled from the spec: `mpu.broadcast_data` (not under `src/`)
deterministically broadcasts the requested fields to every rank of the
model-parallel group — each rank receives an identical copy, so on the data
it is the identity — and fails with a data error when a required field is
missing. -/
def broadcast_data (keys : List String) (data : List (String × List (List ℤ))) :
    Except String (List (String × List (List ℤ))) :=
  if keys.all (fun k => (data.lookup k).isSome) then .ok data
  else .error "broadcast_data: missing required field"

/-- `tokens_[:, 1:]` (training.py line 158). -/
def batch_labels (raw : List (List ℤ)) : List (List ℤ) :=
  raw.map (List.drop 1)

/-- `tokens_[:, :-1]` (training.py line 159). -/
def batch_tokens (raw : List (List ℤ)) : List (List ℤ) :=
  raw.map List.dropLast

/-- Modelled from the spec: `get_ltor_masks_and_position_ids` (`neox.utils`,
not under `src/`): a lower-triangular causal attention mask, a loss mask that
is 1.0 everywhere except positions holding the end-of-document id when
`eod_mask_loss` is configured (those become 0.0), and per-row position ids
`0..seq_len-1`; returned in the source's order
`(attention_mask, loss_mask, position_ids)`. -/
def get_ltor_masks_and_position_ids (tokens : List (List ℤ)) (eod : ℤ)
    (eod_mask_loss : Bool) :
    List (List (List Bool)) × List (List ℚ) × List (List ℕ) :=
  (tokens.map (fun row => (List.range row.length).map (fun i =>
      (List.range row.length).map (fun j => decide (j ≤ i)))),
   tokens.map (fun row => row.map (fun t =>
      if eod_mask_loss = true ∧ t = eod then 0 else 1)),
   tokens.map (fun row => List.range row.length))

/-- `_get_batch` (training.py lines 152-166): broadcast the `"text"` field,
then split the raw rows into `labels = tokens_[:, 1:]` and
`tokens = tokens_[:, :-1]`, and derive the masks and position ids. The
result follows the source's return order
`(tokens, labels, loss_mask, attention_mask, position_ids)`. -/
def get_batch_from_data (eod : ℤ) (eod_mask_loss : Bool)
    (data : List (String × List (List ℤ))) :
    Except String (List (List ℤ) × List (List ℤ) × List (List ℚ) ×
      List (List (List Bool)) × List (List ℕ)) :=
  match broadcast_data ["text"] data with
  | .error e => .error e
  | .ok data_b =>
    match data_b.lookup "text" with
    | none => .error "broadcast_data: missing required field"
    | some tokens_ =>
      let labels := batch_labels tokens_
      let tokens := batch_tokens tokens_
      let masks := get_ltor_masks_and_position_ids tokens eod eod_mask_loss
      .ok (tokens, labels, masks.2.1, masks.1, masks.2.2)

/-- C5: for a raw batch whose `"text"` field is a 2D integer array of shape
`(batch, seq_len + 1)`, the batch producer succeeds and returns
`tokens = raw[:, :-1]` and `labels = raw[:, 1:]`, so that for every row `i`
and every column `j` in `[0, seq_len - 1)`, `labels[i][j] = raw[i][j + 1]`
and `tokens[i][j] = raw[i][j]`. -/
theorem get_batch_shifts_labels
    (eod : ℤ) (eml : Bool) (data : List (String × List (List ℤ)))
    (raw : List (List ℤ)) (seq_len : ℕ)
    (hdata : data.lookup "text" = some raw)
    (hshape : ∀ row ∈ raw, row.length = seq_len + 1) :
    (get_batch_from_data eod eml data =
      .ok (batch_tokens raw, batch_labels raw,
        (get_ltor_masks_and_position_ids (batch_tokens raw) eod eml).2.1,
        (get_ltor_masks_and_position_ids (batch_tokens raw) eod eml).1,
        (get_ltor_masks_and_position_ids (batch_tokens raw) eod eml).2.2)) ∧
    (∀ i, i < raw.length → ∀ j, j + 1 < seq_len →
      ((batch_labels raw).getD i []).getD j 0 = (raw.getD i []).getD (j + 1) 0 ∧
      ((batch_tokens raw).getD i []).getD j 0 = (raw.getD i []).getD j 0) := by
  constructor
  · simp [get_batch_from_data, broadcast_data, hdata]
  · intro i hi j hj
    have hlen : raw[i].length = seq_len + 1 := hshape raw[i] (List.getElem_mem hi)
    have h0 : raw.getD i [] = raw[i] := List.getD_eq_getElem raw [] hi
    have h1 : (batch_labels raw).getD i [] = raw[i].drop 1 := by
      have hi' : i < (batch_labels raw).length := by simpa [batch_labels] using hi
      rw [List.getD_eq_getElem _ [] hi']
      simp [batch_labels]
    have h2 : (batch_tokens raw).getD i [] = raw[i].dropLast := by
      have hi' : i < (batch_tokens raw).length := by simpa [batch_tokens] using hi
      rw [List.getD_eq_getElem _ [] hi']
      simp [batch_tokens]
    rw [h0, h1, h2]
    have hd1 : j < (raw[i].drop 1).length := by
      rw [List.length_drop, hlen]; omega
    have hd2 : j < raw[i].dropLast.length := by
      rw [List.length_dropLast, hlen]; omega
    have hj1 : j + 1 < raw[i].length := by rw [hlen]; omega
    have hjj : j < raw[i].length := by rw [hlen]; omega
    constructor
    · rw [List.getD_eq_getElem _ 0 hd1, List.getD_eq_getElem _ 0 hj1]
      simp
    · rw [List.getD_eq_getElem _ 0 hd2, List.getD_eq_getElem _ 0 hjj]
      exact List.getElem_dropLast _ _ _

/-- Witness for C5 on a concrete 2-by-3 raw batch (`seq_len = 2`). -/
theorem get_batch_shifts_labels_witness :
    (get_batch_from_data 0 false [("text", [[1, 2, 3], [4, 5, 6]])] =
      .ok (batch_tokens [[1, 2, 3], [4, 5, 6]], batch_labels [[1, 2, 3], [4, 5, 6]],
        (get_ltor_masks_and_position_ids (batch_tokens [[1, 2, 3], [4, 5, 6]]) 0 false).2.1,
        (get_ltor_masks_and_position_ids (batch_tokens [[1, 2, 3], [4, 5, 6]]) 0 false).1,
        (get_ltor_masks_and_position_ids (batch_tokens [[1, 2, 3], [4, 5, 6]]) 0 false).2.2)) ∧
    ((batch_labels [[1, 2, 3], [4, 5, 6]]).getD 0 []).getD 0 0 =
      (([[1, 2, 3], [4, 5, 6]] : List (List ℤ)).getD 0 []).getD 1 0 := by
  have h := get_batch_shifts_labels 0 false [("text", [[1, 2, 3], [4, 5, 6]])]
    [[1, 2, 3], [4, 5, 6]] 2 rfl (by decide)
  exact ⟨h.1, (h.2 0 (by decide) 0 (by decide)).1⟩

/-- The model-engine state `evaluate` can observe or change: the train/eval
mode flag (`model.train()` / `model.eval()`), plus opaque snapshots of the
parameters and the optimizer state (type parameters, since `evaluate` never
inspects them). -/
structure ModelState (PS OS : Type) where
  training : Bool
  paramState : PS
  optimizerState : OS
deriving DecidableEq, Repr

/-- Forward-only micro-batches per eval iteration (training.py lines
720-724): 1 in pipeline mode (the engine already accounts for accumulation),
`gradient_accumulation_steps` otherwise. -/
def evalMicroBatches (args : NeoXArgs) : ℕ :=
  if args.is_pipe_parallel then 1 else args.gradient_accumulation_steps

/-- `evaluate` (training.py lines 692-764) over an abstract scalar field `α`
(instantiated with `ℝ` and `Real.exp` in the theorems; `exp'` stands for
`math.exp`). `model.eval()` clears the training flag. The whole
loss-collection loop runs inside `torch.no_grad()` with the model in eval
mode, so one forward pass is a pure function `lossFn` of the data-iterator
position and neither parameters nor optimizer state can be written; `red`
is `reduce_losses`'s abstract per-loss cross-worker average,
`tokens_per_char` the ratio read back from the `CharCounter` adapter wrapped
around the data iterator when `char_level_ppl` is set, and `harnessResults`
the mapping the external eval harness returns for `eval_tasks`.
`model.train()` restores the training flag before returning. -/
def evaluate {PS OS α : Type} [DivisionRing α] (args : NeoXArgs) (exp' : α → α)
    (red : α → α) (lossFn : ℕ → α) (tokens_per_char : α)
    (harnessResults : List (String × α)) (m : ModelState PS OS) :
    List (String × α) × ModelState PS OS :=
  let mEval : ModelState PS OS := { m with training := false }
  let losses := (List.range (args.eval_iters * evalMicroBatches args)).map lossFn
  let lm_loss := listMean (reduce_losses red losses)
  let base := [("lm_loss", lm_loss), ("lm_loss_ppl", exp' lm_loss)]
  let withChar :=
    if args.char_level_ppl then
      base ++ [("lm_loss_char_lvl_ppl", exp' (lm_loss * tokens_per_char))]
    else base
  let results :=
    if args.eval_tasks.isEmpty then withChar else withChar ++ harnessResults
  (results, { mEval with training := true })

/-- C8: after every call to `evaluate` the model is in training-enabled mode,
whatever mode it was in before, and the evaluation pass (run entirely under
`torch.no_grad()`) mutates neither the optimizer state nor the model
parameters. -/
theorem evaluate_restores_training_mode {PS OS : Type} (args : NeoXArgs)
    (exp' red : ℚ → ℚ) (lossFn : ℕ → ℚ) (tokens_per_char : ℚ)
    (harnessResults : List (String × ℚ)) (m : ModelState PS OS) :
    ((evaluate args exp' red lossFn tokens_per_char harnessResults m).2.training = true) ∧
    ((evaluate args exp' red lossFn tokens_per_char harnessResults m).2.paramState =
      m.paramState) ∧
    ((evaluate args exp' red lossFn tokens_per_char harnessResults m).2.optimizerState =
      m.optimizerState) :=
  ⟨rfl, rfl, rfl⟩

/-- C9: when `char_level_ppl` is enabled, `evaluate` reports
`lm_loss_char_lvl_ppl = exp(lm_loss * tokens_per_char)` where `lm_loss` is
the mean reduced token-level loss and `tokens_per_char` is the ratio read
from the counting adapter; with `tokens_per_char = 1` this equals the
reported `lm_loss_ppl = exp(lm_loss)`, the standard token-level
perplexity. -/
theorem evaluate_char_level_ppl {PS OS : Type} (args : NeoXArgs)
    (red : ℝ → ℝ) (lossFn : ℕ → ℝ) (tokens_per_char : ℝ)
    (harnessResults : List (String × ℝ)) (m : ModelState PS OS)
    (hchar : args.char_level_ppl = true) :
    ((evaluate args Real.exp red lossFn tokens_per_char harnessResults m).1.lookup
        "lm_loss_char_lvl_ppl" =
      some (Real.exp
        (listMean (reduce_losses red
          ((List.range (args.eval_iters * evalMicroBatches args)).map lossFn)) *
          tokens_per_char))) ∧
    ((evaluate args Real.exp red lossFn tokens_per_char harnessResults m).1.lookup
        "lm_loss_ppl" =
      some (Real.exp
        (listMean (reduce_losses red
          ((List.range (args.eval_iters * evalMicroBatches args)).map lossFn))))) ∧
    (tokens_per_char = 1 →
      (evaluate args Real.exp red lossFn tokens_per_char harnessResults m).1.lookup
          "lm_loss_char_lvl_ppl" =
        (evaluate args Real.exp red lossFn tokens_per_char harnessResults m).1.lookup
          "lm_loss_ppl") := by
  refine ⟨?_, ?_, ?_⟩
  · cases he : args.eval_tasks.isEmpty <;>
      simp [evaluate, hchar, he, List.lookup]
  · cases he : args.eval_tasks.isEmpty <;>
      simp [evaluate, hchar, he, List.lookup]
  · intro h1
    cases he : args.eval_tasks.isEmpty <;>
      simp [evaluate, hchar, he, h1, List.lookup]

/-- Witness for C9 at a concrete configuration with `tokens_per_char = 1`. -/
theorem evaluate_char_level_ppl_witness :
    (evaluate argsBase Real.exp id (fun _ => (0 : ℝ)) 1 []
        (⟨false, 0, 0⟩ : ModelState ℕ ℕ)).1.lookup "lm_loss_char_lvl_ppl" =
      (evaluate argsBase Real.exp id (fun _ => (0 : ℝ)) 1 []
        (⟨false, 0, 0⟩ : ModelState ℕ ℕ)).1.lookup "lm_loss_ppl" :=
  (evaluate_char_level_ppl argsBase id (fun _ => (0 : ℝ)) 1 []
    (⟨false, 0, 0⟩ : ModelState ℕ ℕ) rfl).2.2 rfl
